import Mathlib

/-!
Shallow embedding of the FluentLM pipeline core (`src/FluentLM/pipeline.py`):
the `Context` key-value store, the four step kinds (`PromptStep`, `ModelStep`,
`ApplyStep`, `DatasetStep`), the `Pipeline` graph, and `Pipeline.execute` with
both its single-pass and dataset-replay modes.

Modelling conventions:
* Python values are the inductive `Value`; the Python constant `None` is
  `Value.vNone` (used both as `dict.get`'s missing-key default and as the
  dataset exhaustion signal, exactly as in the source).
* Python `dict`s are association lists with unique keys; `dictSet` is
  insert-or-overwrite preserving position, matching `d[k] = v`.
* Raised exceptions become `Except PErr`; the constructor classifies the
  Python exception type (`KeyError`, `ValueError`, `TypeError`,
  `networkx.NetworkXUnfeasible`, model-call failures).
* `secrets`-based random key generation (`helpers.generate_random_string`,
  memoised onto the step by `get_input_key`/`get_output_key`) is modelled by
  a deterministic fresh-name supply plus a per-step memo table in the
  execution state; the memo reproduces the source's field mutation, so later
  truthiness checks on `self.input_key`/`self.output_key` see generated keys.
* `networkx.topological_sort` is modelled by Kahn's algorithm (removal of a
  node with no incoming edge from the remaining set), raising the graph
  error exactly when no ordering exists; `networkx.dfs_preorder_nodes` by a
  standard preorder depth-first search following edge insertion order.
* The dataset iterator (`self._iterator`) is a cursor into the record list;
  within one `execute` call the cursor of the driving source step is local
  to the replay loop (the sub-traversal never re-executes the start node),
  and cursors of any other dataset steps live in the execution state.
-/

/-- A Python runtime value as the pipeline manipulates it. -/
inductive Value where
  | vNone
  | vStr (s : String)
  | vInt (n : Int)
  | vList (l : List Value)
  | vDict (r : List (String × Value))

/-- The Python identity test `x is None` as the pipeline uses it on step
results and dataset items. -/
def Value.isNone : Value → Bool
  | .vNone => true
  | _ => false

/-- Classification of the exceptions the pipeline core can raise.
`fuelOut` marks exhaustion of the explicit recursion bound of the replay
loop; `Pipeline.execute` supplies a bound that is provably never reached. -/
inductive PErr where
  | keyError (msg : String)
  | valueError (msg : String)
  | typeError (msg : String)
  | graphError (msg : String)
  | capabilityError (msg : String)
  | fuelOut
  deriving Repr, DecidableEq

/-- Python string conversion as `str.format` applies it to interpolated
values (`str(None) = "None"`, numbers in decimal). The rendering of
aggregate values is not observed by any claim. -/
def Value.toPyStr : Value → String
  | .vNone => "None"
  | .vStr s => s
  | .vInt n => toString n
  | .vList _ => "[...]"
  | .vDict _ => "{...}"

/-- Insert-or-overwrite on an association list, matching `d[k] = v` on a
Python dict: an existing key keeps its position and gets the new value, a
new key is appended. -/
def dictSet {α β : Type} [BEq α] (l : List (α × β)) (k : α) (v : β) :
    List (α × β) :=
  if (List.lookup k l).isSome then
    l.map (fun p => cond (p.1 == k) (k, v) p)
  else
    l ++ [(k, v)]

/-- The working store of one execution pass (`Context.context`, a dict). -/
abbrev Context := List (String × Value)

namespace Context

/-- `Context.add`: `self.context[key] = value`. -/
def add (c : Context) (k : String) (v : Value) : Context := dictSet c k v

/-- `Context.get`: `self.context.get(key)` — returns `None` when absent. -/
def get (c : Context) (k : String) : Value := (List.lookup k c).getD Value.vNone

/-- `Context.remove`: `del self.context[key]` — `KeyError` when absent. -/
def remove (c : Context) (k : String) : Except PErr Context :=
  if (List.lookup k c).isSome then
    Except.ok (c.filter (fun p => !(p.1 == k)))
  else
    Except.error (PErr.keyError k)

/-- `Context.clear`: `self.context.clear()`. -/
def clear (_ : Context) : Context := []

/-- `Context.update`: replaces the value when the key is present, raises
`KeyError` otherwise. -/
def update (c : Context) (k : String) (v : Value) : Except PErr Context :=
  if (List.lookup k c).isSome then
    Except.ok (dictSet c k v)
  else
    Except.error (PErr.keyError k)

end Context

/-- Python truthiness of an optional string field: `None` and `""` are
falsy, every other string is truthy. -/
def truthy : Option String → Option String
  | Option.none => Option.none
  | Option.some s => if s = "" then Option.none else Option.some s

/-- `item[key]` where `item` should be a record (string-keyed dict) and the
key is an optional-string field: subscripting a non-dict raises `TypeError`;
a `None` key is absent from a string-keyed record, raising `KeyError`;
otherwise a plain dict lookup raising `KeyError` when absent. -/
def pyGetItem (item : Value) (k : Option String) : Except PErr Value :=
  match item with
  | Value.vDict r =>
    match k with
    | Option.some s =>
      match List.lookup s r with
      | Option.some v => Except.ok v
      | Option.none => Except.error (PErr.keyError s)
    | Option.none => Except.error (PErr.keyError "None")
  | _ => Except.error (PErr.typeError "object is not subscriptable")

/-- `item[sel]` where the key is itself a runtime value (the indirect-target
double lookup): list keys are unhashable (`TypeError`); other non-string
keys are never present in a string-keyed record (`KeyError`). -/
def pyGetItemByValue (item sel : Value) : Except PErr Value :=
  match item with
  | Value.vDict r =>
    match sel with
    | Value.vStr s =>
      match List.lookup s r with
      | Option.some v => Except.ok v
      | Option.none => Except.error (PErr.keyError s)
    | Value.vList _ => Except.error (PErr.typeError "unhashable type")
    | Value.vDict _ => Except.error (PErr.typeError "unhashable type")
    | Value.vNone => Except.error (PErr.keyError "None")
    | Value.vInt _ => Except.error (PErr.keyError "non-string key")
  | _ => Except.error (PErr.typeError "object is not subscriptable")

/-- One fragment of a format template: literal text or a `\x7bname\x7d`
placeholder. A template string is embedded pre-split into fragments. -/
inductive TPart where
  | lit (s : String)
  | var (name : String)
  deriving Repr, DecidableEq

/-- A template is the fragment list of the format string. -/
abbrev Template := List TPart

/-- `PromptStep._extract_variables`: the placeholder names occurring in the
template, in order. -/
def extractVariables (tpl : Template) : List String :=
  tpl.filterMap (fun p => match p with
    | TPart.var n => Option.some n
    | TPart.lit _ => Option.none)

/-- `PromptStep.__init__`'s defaulting of the variable map: an explicit map
is kept; otherwise every placeholder of the template is declared with
default `None`. -/
def promptVars (tpl : Template) (declared : Option (List (String × Value))) :
    List (String × Value) :=
  match declared with
  | Option.some vs => vs
  | Option.none => (extractVariables tpl).map (fun n => (n, Value.vNone))

/-- `self.template.format(**vars)`: substitute every placeholder from the
variable map, raising `KeyError` on the first placeholder with no entry. -/
def pyFormat (tpl : Template) (vars : List (String × Value)) :
    Except PErr String :=
  match tpl with
  | [] => Except.ok ""
  | TPart.lit s :: rest =>
    match pyFormat rest vars with
    | Except.ok r => Except.ok (s ++ r)
    | Except.error e => Except.error e
  | TPart.var n :: rest =>
    match List.lookup n vars with
    | Option.some v =>
      match pyFormat rest vars with
      | Except.ok r => Except.ok (v.toPyStr ++ r)
      | Except.error e => Except.error e
    | Option.none => Except.error (PErr.keyError n)

/-- `\x7b**a, **b\x7d`: merged dict in which `b`'s entries take precedence
over `a`'s. -/
def dictMerge (a b : List (String × Value)) : List (String × Value) :=
  (a.filter (fun p => (List.lookup p.1 b).isNone)) ++ b

/-- The body of `PromptStep.execute` with the output key already resolved:
overlay the declared variables with the context (context wins), format, and
store the formatted string under the output key. -/
def promptExecute (tpl : Template) (vars : List (String × Value))
    (outKey : String) (ctx : Context) : Except PErr (Context × String) :=
  match pyFormat tpl (dictMerge vars ctx) with
  | Except.ok s => Except.ok (Context.add ctx outKey (Value.vStr s), s)
  | Except.error e => Except.error e

/-- A dataset source: its records, and whether it supports `len()` (a list
does, a generator does not). -/
structure Dataset where
  records : List Value
  sized : Bool

/-- The configuration of a `DatasetStep`. -/
structure DatasetStep where
  dataset : Dataset
  input_key : Option String
  output_key : Option String
  target : Option String
  target_type : Option String

namespace DatasetStep

/-- The `input_key`/`output_key` copy part of `DatasetStep.execute` (lines
125-128), over the step's effective keys (the declared field, or the key a
prior `get_input_key`/`get_output_key` call generated and memoised onto the
step): if the input key is set, copy `item[input_key]` under it; if the
output key is set, copy `item[input_key]` under it as well — the value is
looked up by the (possibly unset) input key. -/
def processKeys (effIn effOut : Option String) (item : Value)
    (ctx : Context) : Except PErr Context :=
  match
    (match effIn with
    | Option.some ik =>
      match pyGetItem item (Option.some ik) with
      | Except.ok v => Except.ok (Context.add ctx ik v)
      | Except.error e => Except.error e
    | Option.none => Except.ok ctx) with
  | Except.ok ctx2 =>
    match effOut with
    | Option.some okk =>
      match pyGetItem item effIn with
      | Except.ok v => Except.ok (Context.add ctx2 okk v)
      | Except.error e => Except.error e
    | Option.none => Except.ok ctx2
  | Except.error e => Except.error e

/-- The record-processing part of `DatasetStep.execute` (lines 117-128),
given the fetched record: target handling first (direct copy, indirect
double lookup, or `ValueError` for any other target type when the target is
set), then the `input_key`/`output_key` copies. -/
def process (ds : DatasetStep) (effIn effOut : Option String) (item : Value)
    (ctx : Context) : Except PErr Context :=
  match truthy ds.target with
  | Option.some t =>
    (match
      (if ds.target_type = Option.some "indirect" then
        match pyGetItem item ds.target with
        | Except.ok sel =>
          match pyGetItemByValue item sel with
          | Except.ok v => Except.ok (Context.add ctx t v)
          | Except.error e => Except.error e
        | Except.error e => Except.error e
      else if ds.target_type = Option.some "direct" then
        match pyGetItem item ds.target with
        | Except.ok v => Except.ok (Context.add ctx t v)
        | Except.error e => Except.error e
      else
        Except.error (PErr.valueError "Invalid target_type")) with
    | Except.ok ctx1 => processKeys effIn effOut item ctx1
    | Except.error e => Except.error e)
  | Option.none => processKeys effIn effOut item ctx

/-- `DatasetStep.execute`: fetch the record at the cursor (`StopIteration`
resets the cursor and returns `None`, the exhaustion signal), process it,
and return it together with the advanced cursor. -/
def fetch (ds : DatasetStep) (effIn effOut : Option String) (c : Nat)
    (ctx : Context) : Except PErr (Context × Value × Nat) :=
  match ds.dataset.records.drop c with
  | [] => Except.ok (ctx, Value.vNone, 0)
  | item :: _ =>
    match ds.process effIn effOut item ctx with
    | Except.ok ctx1 => Except.ok (ctx1, item, c + 1)
    | Except.error e => Except.error e

end DatasetStep

/-- A step of the pipeline. The function fields stand for the pieces the
core treats as opaque callables: `ApplyStep.func` is the user's transform,
and a `ModelStep`'s caller is `CallerFacade.call_model` with its
provider/model/client hints already fixed (the external model-invocation
capability; its errors propagate unmodified). A `ModelStep` constructed
with an inline prompt holds that template (its `PromptStep` sub-object has
no declared keys and auto-extracted defaults, per `PromptStep.__init__`). -/
inductive Step where
  | prompt (template : Template) (declaredVars : List (String × Value))
      (input_key output_key : Option String)
  | model (caller : Value → Except PErr Value) (promptTemplate : Option Template)
      (input_key output_key : Option String)
  | apply (func : Value → Except PErr Value) (input_key output_key : Option String)
  | dataset (ds : DatasetStep)

/-- The declared `input_key` field of a step (the `Step` base class). -/
def Step.input_key : Step → Option String
  | .prompt _ _ ik _ => ik
  | .model _ _ ik _ => ik
  | .apply _ ik _ => ik
  | .dataset d => d.input_key

/-- The declared `output_key` field of a step (the `Step` base class). -/
def Step.output_key : Step → Option String
  | .prompt _ _ _ ok_ => ok_
  | .model _ _ _ ok_ => ok_
  | .apply _ _ ok_ => ok_
  | .dataset d => d.output_key

/-- `helpers.generate_random_string`, rendered deterministic: the n-th key
the run generates. (The source draws 10 random ascii letters; only
freshness relative to the keys the run otherwise uses matters.) -/
def genKeyName (n : Nat) : String := "#gen" ++ toString n ++ "#"

/-- The mutable state of one `Pipeline.execute` call: the `Context`
contents, the memo of generated step keys (slot 0 = `input_key`, slot 1 =
`output_key`, slot 2 = the output key of a `ModelStep`'s inline
`PromptStep`), the fresh-name supply, and the cursors of dataset steps
driven inside a sub-traversal. -/
structure ExecState where
  ctx : Context
  gen : List ((Nat × Nat) × String)
  iters : List (Nat × Nat)
  supply : Nat

namespace ExecState

/-- `get_input_key` / `get_output_key`: return the declared key if truthy,
otherwise the previously generated one, otherwise generate a fresh key and
memoise it onto the step (field mutation in the source). -/
def getKey (st : ExecState) (sid : Nat) (declared : Option String)
    (slot : Nat) : String × ExecState :=
  match truthy declared with
  | Option.some k => (k, st)
  | Option.none =>
    match List.lookup (sid, slot) st.gen with
    | Option.some k => (k, st)
    | Option.none =>
      let k := genKeyName st.supply
      (k, { st with gen := st.gen ++ [((sid, slot), k)],
                    supply := st.supply + 1 })

/-- The current value of a step's key field as plain reads (`if
self.input_key:` and `item[self.input_key]`) observe it: the declared key
if truthy, else whatever a prior `get_*_key` call generated, else unset. -/
def effKey (st : ExecState) (sid : Nat) (declared : Option String)
    (slot : Nat) : Option String :=
  match truthy declared with
  | Option.some k => Option.some k
  | Option.none => List.lookup (sid, slot) st.gen

end ExecState

/-- The initial execution state of `Pipeline.execute`:
`Context(initial_context)` plus empty memo tables. -/
def initState (init : Option Context) : ExecState :=
  { ctx := init.getD [], gen := [], iters := [], supply := 0 }

/-- The pipeline graph: nodes are step objects identified by a `Nat` (the
source compares steps by object identity), edges are "produces input for",
and `prev` is the tail the builder chains from. -/
structure Pipeline where
  nodes : List (Nat × Step)
  edges : List (Nat × Nat)
  prev : Option Nat

namespace Pipeline

/-- The freshly constructed pipeline. -/
def empty : Pipeline := { nodes := [], edges := [], prev := Option.none }

/-- `Pipeline.add_step`: insert the node (a no-op when the same step object
is added again, as in `networkx.DiGraph.add_node`), add an edge from the
previous tail if there is one (deduplicated, as in `add_edge`), and move
the tail. -/
def add_step (p : Pipeline) (sid : Nat) (s : Step) : Pipeline :=
  { nodes := if (List.lookup sid p.nodes).isSome then p.nodes
             else p.nodes ++ [(sid, s)]
    edges := match p.prev with
      | Option.some q =>
        if (q, sid) ∈ p.edges then p.edges else p.edges ++ [(q, sid)]
      | Option.none => p.edges
    prev := Option.some sid }

end Pipeline

/-- Does node `n` have no incoming edge from a node still in `remaining`? -/
def noIncoming (edges : List (Nat × Nat)) (remaining : List (Nat × Step))
    (n : Nat) : Bool :=
  !(edges.any (fun e => e.2 == n && remaining.any (fun m => m.1 == e.1)))

/-- Kahn's algorithm, the model of `list(nx.topological_sort(...))`:
repeatedly emit a remaining node with no incoming edge from the remaining
set; when none exists a cycle is present and the graph error is raised.
The fuel only bounds recursion; each round removes a node, so the
`p.nodes.length` supplied by `topoSort` is never exhausted on success. -/
def kahn (edges : List (Nat × Nat)) :
    Nat → List (Nat × Step) → Except PErr (List (Nat × Step))
  | _, [] => Except.ok []
  | 0, _ :: _ => Except.error (PErr.graphError "cycle detected")
  | fuel + 1, remaining =>
    match remaining.find? (fun m => noIncoming edges remaining m.1) with
    | Option.none => Except.error (PErr.graphError "cycle detected")
    | Option.some m =>
      match kahn edges fuel (remaining.filter (fun x => !(x.1 == m.1))) with
      | Except.ok rest => Except.ok (m :: rest)
      | Except.error e => Except.error e

/-- `list(nx.topological_sort(self.graph))` (line 153). -/
def Pipeline.topoSort (p : Pipeline) : Except PErr (List (Nat × Step)) :=
  kahn p.edges p.nodes.length p.nodes

/-- The successors of a node, in edge insertion order. -/
def successors (edges : List (Nat × Nat)) (u : Nat) : List Nat :=
  (edges.filter (fun e => e.1 == u)).map (fun e => e.2)

/-- Preorder depth-first traversal from a node, the model of
`nx.dfs_preorder_nodes(self.graph, start_step)`. The accumulated visited
list is the preorder. -/
def dfsAux (edges : List (Nat × Nat)) :
    Nat → Nat → List Nat → List Nat
  | 0, _, visited => visited
  | fuel + 1, u, visited =>
    if u ∈ visited then visited
    else (successors edges u).foldl
      (fun vis v => dfsAux edges fuel v vis) (visited ++ [u])

/-- `nx.dfs_preorder_nodes` over the pipeline graph. -/
def Pipeline.dfsPreorder (p : Pipeline) (start : Nat) : List Nat :=
  dfsAux p.edges (p.nodes.length + 1) start []

/-- `Step.execute` dispatched over the step kinds, with the surrounding
key bookkeeping. Returns the step's return value. -/
def Step.exec (sid : Nat) (s : Step) (st : ExecState) :
    Except PErr (ExecState × Value) :=
  match s with
  | Step.prompt tpl vars _ ok_ =>
    let r := st.getKey sid ok_ 1
    (match promptExecute tpl vars r.1 r.2.ctx with
    | Except.ok (ctx', formatted) =>
      Except.ok ({ r.2 with ctx := ctx' }, Value.vStr formatted)
    | Except.error e => Except.error e)
  | Step.model caller ptpl _ ok_ =>
    (match
      (match ptpl with
      | Option.some tpl =>
        -- self.prompt_step.execute(context): inline PromptStep with
        -- auto-extracted defaults and a generated output key (slot 2)
        let r := st.getKey sid Option.none 2
        (match promptExecute tpl (promptVars tpl Option.none) r.1 r.2.ctx with
        | Except.ok (ctx', formatted) =>
          Except.ok ({ r.2 with ctx := ctx' }, Value.vStr formatted)
        | Except.error e => Except.error e)
      | Option.none =>
        let r := st.getKey sid s.input_key 0
        Except.ok (r.2, r.2.ctx.get r.1)) with
    | Except.ok (st1, input) =>
      (match caller input with
      | Except.ok result =>
        let r := st1.getKey sid ok_ 1
        Except.ok ({ r.2 with ctx := r.2.ctx.add r.1 result }, result)
      | Except.error e => Except.error e)
    | Except.error e => Except.error e)
  | Step.apply f _ ok_ =>
    let ri := st.getKey sid s.input_key 0
    let input := ri.2.ctx.get ri.1
    (match f input with
    | Except.ok result =>
      let ro := ri.2.getKey sid ok_ 1
      Except.ok ({ ro.2 with ctx := ro.2.ctx.add ro.1 result }, result)
    | Except.error e => Except.error e)
  | Step.dataset ds =>
    let c := (List.lookup sid st.iters).getD 0
    (match ds.fetch (st.effKey sid ds.input_key 0) (st.effKey sid ds.output_key 1)
        c st.ctx with
    | Except.ok (ctx', item, c') =>
      Except.ok ({ st with ctx := ctx', iters := dictSet st.iters sid c' }, item)
    | Except.error e => Except.error e)

namespace Pipeline

/-- `Pipeline._execute_step`: for each direct predecessor (in edge
insertion order) copy the value stored under the predecessor's output key
under this step's input key, then run the step. -/
def executeStep (p : Pipeline) (sid : Nat) (s : Step) (st : ExecState) :
    Except PErr (ExecState × Value) :=
  let preds := (p.edges.filter (fun e => e.2 == sid)).map (fun e => e.1)
  let st := preds.foldl (fun st pid =>
    match List.lookup pid p.nodes with
    | Option.some ps =>
      let ro := st.getKey pid ps.output_key 1
      let inputData := ro.2.ctx.get ro.1
      let ri := ro.2.getKey sid s.input_key 0
      { ri.2 with ctx := ri.2.ctx.add ri.1 inputData }
    | Option.none => st) st
  Step.exec sid s st

/-- The node loop of `Pipeline._execute_from`: run every node of the
depth-first preorder except the start node itself. -/
def runFrom (p : Pipeline) (startId : Nat) :
    List Nat → ExecState → Except PErr ExecState
  | [], st => Except.ok st
  | sid :: rest, st =>
    if sid = startId then p.runFrom startId rest st
    else
      match List.lookup sid p.nodes with
      | Option.some s =>
        match p.executeStep sid s st with
        | Except.ok (st', _) => p.runFrom startId rest st'
        | Except.error e => Except.error e
      | Option.none => p.runFrom startId rest st

/-- `Pipeline._execute_from`: run the sub-traversal, then return the value
stored under the last-added step's output key (or `None` if the pipeline
has no last step). -/
def executeFrom (p : Pipeline) (startId : Nat) (st : ExecState) :
    Except PErr (ExecState × Value) :=
  match p.runFrom startId (p.dfsPreorder startId) st with
  | Except.ok st1 =>
    (match p.prev with
    | Option.some pid =>
      (match List.lookup pid p.nodes with
      | Option.some ps =>
        let ro := st1.getKey pid ps.output_key 1
        Except.ok (ro.2, ro.2.ctx.get ro.1)
      | Option.none => Except.ok (st1, Value.vNone))
    | Option.none => Except.ok (st1, Value.vNone))
  | Except.error e => Except.error e

/-- The step loop of single-pass mode (lines 172-173). -/
def runSteps (p : Pipeline) : List (Nat × Step) → ExecState →
    Except PErr ExecState
  | [], st => Except.ok st
  | n :: rest, st =>
    match p.executeStep n.1 n.2 st with
    | Except.ok (st', _) => p.runSteps rest st'
    | Except.error e => Except.error e

/-- Single-pass mode (lines 171-176): run every node in topological order;
the result is the context value under the last-added step's output key, or
the initial empty result list when the pipeline has no steps. -/
def singlePass (p : Pipeline) (steps : List (Nat × Step)) (st : ExecState) :
    Except PErr Value :=
  match p.runSteps steps st with
  | Except.ok st1 =>
    (match p.prev with
    | Option.some pid =>
      (match List.lookup pid p.nodes with
      | Option.some ps =>
        let ro := st1.getKey pid ps.output_key 1
        Except.ok (ro.2.ctx.get ro.1)
      | Option.none => Except.ok (Value.vList []))
    | Option.none => Except.ok (Value.vList []))
  | Except.error e => Except.error e

/-- The dataset-replay loop (lines 160-170): fetch the next record from the
driving source step; on the `None` exhaustion signal return the accumulated
results; otherwise run the sub-traversal, append its result unless it is
`None`, clear the context, and loop. The fuel only bounds recursion;
`execute` supplies `records.length + 1`, which is never exhausted. -/
def replayLoop (p : Pipeline) (fid : Nat) (ds : DatasetStep) :
    Nat → ExecState → Nat → List Value → Except PErr Value
  | 0, _, _, _ => Except.error PErr.fuelOut
  | fuel + 1, st, c, acc =>
    match ds.dataset.records.drop c with
    | [] => Except.ok (Value.vList acc)
    | item :: _ =>
      match ds.process (st.effKey fid ds.input_key 0)
          (st.effKey fid ds.output_key 1) item st.ctx with
      | Except.error e => Except.error e
      | Except.ok ctx1 =>
        if item.isNone then Except.ok (Value.vList acc)
        else
          match p.executeFrom fid { st with ctx := ctx1 } with
          | Except.error e => Except.error e
          | Except.ok (st2, sub) =>
            p.replayLoop fid ds fuel { st2 with ctx := Context.clear st2.ctx }
              (c + 1) (if sub.isNone then acc else acc ++ [sub])

/-- `Pipeline.execute`: build the context from the initial one, compute the
topological order, and enter dataset-replay mode when the first node is a
`DatasetStep` (after `tqdm(total = len(dataset))`, whose `len` call raises
`TypeError` when the dataset is not sized) or single-pass mode otherwise. -/
def execute (p : Pipeline) (init : Option Context) : Except PErr Value :=
  match p.topoSort with
  | Except.error e => Except.error e
  | Except.ok steps =>
    match steps with
    | (fid, Step.dataset ds) :: _ =>
      if ds.dataset.sized then
        p.replayLoop fid ds (ds.dataset.records.length + 1) (initState init) 0 []
      else
        Except.error (PErr.typeError "object has no len()")
    | _ => p.singlePass steps (initState init)

end Pipeline

/-- The spec's reading of dataset-replay output, for comparison with the
code's `replayLoop`: the sequence of per-record sub-traversal results with
one entry per processed record and no filtering. It advances through the
records exactly as `replayLoop` does but collects every sub-result,
including the `None` ones that `replayLoop` drops. -/
def Pipeline.replayRecordResults (p : Pipeline) (fid : Nat) (ds : DatasetStep) :
    Nat → ExecState → Nat → Except PErr (List Value)
  | 0, _, _ => Except.error PErr.fuelOut
  | fuel + 1, st, c =>
    match ds.dataset.records.drop c with
    | [] => Except.ok []
    | item :: _ =>
      match ds.process (st.effKey fid ds.input_key 0)
          (st.effKey fid ds.output_key 1) item st.ctx with
      | Except.error e => Except.error e
      | Except.ok ctx1 =>
        if item.isNone then Except.ok []
        else
          match p.executeFrom fid { st with ctx := ctx1 } with
          | Except.error e => Except.error e
          | Except.ok (st2, sub) =>
            match p.replayRecordResults fid ds fuel
                { st2 with ctx := Context.clear st2.ctx } (c + 1) with
            | Except.error e => Except.error e
            | Except.ok rest => Except.ok (sub :: rest)

/-- The identity transform, `lambda v: v`. -/
def idFunc : Value → Except PErr Value := fun v => Except.ok v

/-- A transform that raises, standing for any user function or model call
that fails during a step's execution. -/
def failFunc : Value → Except PErr Value :=
  fun _ => Except.error (PErr.valueError "boom")

/-- A transform returning `None`, `lambda v: None`. -/
def noneFunc : Value → Except PErr Value := fun _ => Except.ok Value.vNone

/-- A one-record dataset whose record holds `None` under `"q"`:
`[{"q": None}]`, consumed with `input_key = output_key = "q"`. -/
def dsCex : DatasetStep :=
  { dataset := { records := [Value.vDict [("q", Value.vNone)]], sized := true }
    input_key := Option.some "q", output_key := Option.some "q"
    target := Option.none, target_type := Option.none }

/-- The pipeline holding only `dsCex`. -/
def pCex : Pipeline := Pipeline.empty.add_step 0 (Step.dataset dsCex)

/-- A dataset step over a source that does not support `len()` (a
generator), with one record `\x7b"q": 1\x7d`. -/
def dsUnsized : DatasetStep :=
  { dataset := { records := [Value.vDict [("q", Value.vInt 1)]], sized := false }
    input_key := Option.some "q", output_key := Option.some "q"
    target := Option.none, target_type := Option.none }

/-- The pipeline holding only `dsUnsized`. -/
def pUnsized : Pipeline := Pipeline.empty.add_step 0 (Step.dataset dsUnsized)

/-- The dataset `[\x7b"q":"a"\x7d, \x7b"q":"b"\x7d]` of the spec's replay
scenario, consumed with `input_key = output_key = "q"`. -/
def dsAB : DatasetStep :=
  { dataset := { records := [Value.vDict [("q", Value.vStr "a")],
                             Value.vDict [("q", Value.vStr "b")]], sized := true }
    input_key := Option.some "q", output_key := Option.some "q"
    target := Option.none, target_type := Option.none }

/-- A transform wrapping its input in a singleton list,
`lambda v: [v]`. -/
def wrapFunc : Value → Except PErr Value :=
  fun v => Except.ok (Value.vList [v])

/-- `dsAB` followed by a transform (wrap in a singleton list) reading `"q"`
and writing `"out"`. -/
def pAB : Pipeline :=
  (Pipeline.empty.add_step 0 (Step.dataset dsAB)).add_step 1
    (Step.apply wrapFunc (Option.some "q") (Option.some "out"))

/-- Step A of the cyclic-graph scenario. -/
def stepA : Step := Step.apply idFunc (Option.some "a") (Option.some "b")

/-- Step B of the cyclic-graph scenario. -/
def stepB : Step := Step.apply idFunc (Option.some "b") (Option.some "c")

/-- The cyclic pipeline: adding A, then B, then the same A again produces
edges A→B and B→A. -/
def pCycle : Pipeline :=
  ((Pipeline.empty.add_step 0 stepA).add_step 1 stepB).add_step 0 stepA

/-- A single always-failing transform step. -/
def pFail : Pipeline :=
  Pipeline.empty.add_step 0
    (Step.apply failFunc (Option.some "x") (Option.some "y"))

/-- `dsAB` followed by an always-failing transform step. -/
def pDFail : Pipeline :=
  (Pipeline.empty.add_step 0 (Step.dataset dsAB)).add_step 1
    (Step.apply failFunc (Option.some "q") (Option.some "out"))

/-- A single identity transform step reading `"x"` and writing `"y"`. -/
def pApply : Pipeline :=
  Pipeline.empty.add_step 0
    (Step.apply idFunc (Option.some "x") (Option.some "y"))

/-- Is the head of a topological order a `DatasetStep`? (The
`isinstance(first_step, DatasetStep)` test on line 156.) -/
def headIsDataset : List (Nat × Step) → Bool
  | (_, Step.dataset _) :: _ => true
  | _ => false

/-- A directed cycle through the given edge list: a non-empty list of
nodes, consecutive ones joined by edges, and an edge from the last node
back to the first. -/
def isCycle (edges : List (Nat × Nat)) : List Nat → Prop
  | [] => False
  | a :: rest =>
    List.Chain (fun x y => (x, y) ∈ edges) a rest ∧
      ((a :: rest).getLast (List.cons_ne_nil a rest), a) ∈ edges

/-- The record `\x7b"route": "dest", "dest": 42\x7d` of the spec's
indirect-target scenario. -/
def recInd : Value :=
  Value.vDict [("route", Value.vStr "dest"), ("dest", Value.vInt 42)]

/-- A dataset step with `target = "route"` and `target_type = "indirect"`
over the single record `recInd`. -/
def dsInd : DatasetStep :=
  { dataset := { records := [recInd], sized := true }
    input_key := Option.none, output_key := Option.none
    target := Option.some "route", target_type := Option.some "indirect" }

/-- A dataset step with `target = "q"` and `target_type = "direct"` over
the single record `\x7b"q": 3\x7d`. -/
def dsDirect : DatasetStep :=
  { dataset := { records := [Value.vDict [("q", Value.vInt 3)]], sized := true }
    input_key := Option.none, output_key := Option.none
    target := Option.some "q", target_type := Option.some "direct" }

/-- A dataset step with target set but an unrecognised `target_type`. -/
def dsBadTT : DatasetStep :=
  { dataset := { records := [Value.vDict [("q", Value.vInt 3)]], sized := true }
    input_key := Option.none, output_key := Option.none
    target := Option.some "q", target_type := Option.some "sideways" }

/-- A dataset step constructed with `output_key` set but `input_key`
unset, over the single record `\x7b"q": 1\x7d`. -/
def dsC9 : DatasetStep :=
  { dataset := { records := [Value.vDict [("q", Value.vInt 1)]], sized := true }
    input_key := Option.none, output_key := Option.some "out"
    target := Option.none, target_type := Option.none }

/-- Setting key `k` makes `k` map to `v`: the in-place-update half. -/
theorem lookup_map_set {α β : Type} [BEq α] [LawfulBEq α] (k : α) (v : β) :
    ∀ l : List (α × β), (List.lookup k l).isSome = true →
      List.lookup k (l.map fun p => cond (p.1 == k) (k, v) p) =
        Option.some v := by
  intro l
  induction l with
  | nil => simp
  | cons a t ih =>
    intro h
    cases hk : a.1 == k with
    | true => simp [List.lookup, hk]
    | false =>
      have hne : ¬a.1 = k := by simpa using hk
      have hk2 : (k == a.1) = false := by
        simpa using fun hh => hne hh.symm
      simp only [List.lookup, hk2, List.map_cons, hk, cond_false] at h ⊢
      exact ih h

/-- Lookup passes over a prefix in which the key does not occur. -/
theorem lookup_append_of_none {α β : Type} [BEq α] (k : α) :
    ∀ l l2 : List (α × β), List.lookup k l = Option.none →
      List.lookup k (l ++ l2) = List.lookup k l2 := by
  intro l l2
  induction l with
  | nil => simp
  | cons a t ih =>
    intro h
    by_cases hk : (k == a.1) = true
    · simp [List.lookup, hk] at h
    · have hk' : (k == a.1) = false := by simpa using hk
      simp only [List.lookup, List.cons_append, hk'] at h ⊢
      exact ih h

/-- After `dictSet l k v`, key `k` maps to `v`. -/
theorem lookup_dictSet_self {α β : Type} [BEq α] [LawfulBEq α]
    (l : List (α × β)) (k : α) (v : β) :
    List.lookup k (dictSet l k v) = Option.some v := by
  unfold dictSet
  by_cases h : (List.lookup k l).isSome = true
  · simp only [h, if_true]
    exact lookup_map_set k v l h
  · have h0 : List.lookup k l = Option.none := by
      cases hh : List.lookup k l with
      | none => rfl
      | some w => simp [hh] at h
    simp only [h0, Option.isSome_none, Bool.false_eq_true, if_false]
    rw [lookup_append_of_none k l [(k, v)] h0]
    simp [List.lookup]

/-- `Context.get` after `Context.add` of the same key returns the added
value. -/
theorem Context.get_add (c : Context) (k : String) (v : Value) :
    (c.add k v).get k = v := by
  simp [Context.get, Context.add, lookup_dictSet_self]

/-- When every placeholder of the template resolves, formatting
succeeds. -/
theorem pyFormat_ok_of_resolved (vars : List (String × Value)) :
    ∀ tpl : Template,
      (∀ n, TPart.var n ∈ tpl → (List.lookup n vars).isSome = true) →
      ∃ s, pyFormat tpl vars = Except.ok s := by
  intro tpl
  induction tpl with
  | nil => exact fun _ => ⟨"", rfl⟩
  | cons hd rest ih =>
    intro h
    cases hd with
    | lit s =>
      obtain ⟨r, hr⟩ := ih (fun n hn => h n (List.mem_cons_of_mem _ hn))
      exact ⟨s ++ r, by simp [pyFormat, hr]⟩
    | var n =>
      have hn := h n (List.mem_cons_self _ _)
      cases hv : List.lookup n vars with
      | none => simp [hv] at hn
      | some v =>
        obtain ⟨r, hr⟩ := ih (fun m hm => h m (List.mem_cons_of_mem _ hm))
        exact ⟨v.toPyStr ++ r, by simp [pyFormat, hv, hr]⟩

/-- When some placeholder of the template does not resolve, formatting
raises a `KeyError` (for the first unresolved placeholder). -/
theorem pyFormat_error_of_missing (vars : List (String × Value)) :
    ∀ (tpl : Template) (n : String),
      TPart.var n ∈ tpl → List.lookup n vars = Option.none →
      ∃ m, pyFormat tpl vars = Except.error (PErr.keyError m) := by
  intro tpl
  induction tpl with
  | nil => intro n hn; simp at hn
  | cons hd rest ih =>
    intro n hmem hnone
    cases hd with
    | lit s =>
      have hrest : TPart.var n ∈ rest := by
        rcases List.mem_cons.mp hmem with h | h
        · exact absurd h (by simp)
        · exact h
      obtain ⟨m, hm⟩ := ih n hrest hnone
      exact ⟨m, by simp [pyFormat, hm]⟩
    | var n0 =>
      cases hl : List.lookup n0 vars with
      | none => exact ⟨n0, by simp [pyFormat, hl]⟩
      | some v =>
        have hrest : TPart.var n ∈ rest := by
          rcases List.mem_cons.mp hmem with h | h
          · cases h; rw [hl] at hnone; cases hnone
          · exact h
        obtain ⟨m, hm⟩ := ih n hrest hnone
        exact ⟨m, by simp [pyFormat, hl, hm]⟩

/-- A key absent from a list is absent from any filtering of it. -/
theorem lookup_filter_none {α β : Type} [BEq α] (k : α) (f : α × β → Bool) :
    ∀ l : List (α × β), List.lookup k l = Option.none →
      List.lookup k (l.filter f) = Option.none := by
  intro l
  induction l with
  | nil => simp
  | cons a t ih =>
    intro h
    by_cases hk : (k == a.1) = true
    · simp [List.lookup, hk] at h
    · have hk' : (k == a.1) = false := by simpa using hk
      simp only [List.lookup, hk'] at h
      cases hf : f a with
      | true => simp only [List.filter_cons, hf, if_true, List.lookup, hk']; exact ih h
      | false => simp only [List.filter_cons, hf, Bool.false_eq_true, if_false]; exact ih h

/-- A key with no entry in either dict has no entry in the merged dict. -/
theorem dictMerge_lookup_none (n : String) (a b : List (String × Value))
    (hb : List.lookup n b = Option.none) (ha : List.lookup n a = Option.none) :
    List.lookup n (dictMerge a b) = Option.none := by
  unfold dictMerge
  rw [lookup_append_of_none n _ b (lookup_filter_none n _ a ha)]
  exact hb

/-- The head of `l.drop c` is the element of `l` at index `c`. -/
theorem getElem?_of_drop_cons {α : Type} :
    ∀ (l : List α) (c : Nat) (x : α) (t : List α),
      l.drop c = x :: t → l[c]? = Option.some x := by
  intro l c
  induction c generalizing l with
  | zero => intro x t h; simp at h; simp [h]
  | succ c ih =>
    intro x t h
    cases l with
    | nil => simp at h
    | cons hd tl =>
      simp only [List.drop_succ_cons] at h
      simpa using ih tl x t h

/-- The single-pass step loop splits over list append. -/
theorem runSteps_append (p : Pipeline) :
    ∀ (l1 l2 : List (Nat × Step)) (st : ExecState),
      p.runSteps (l1 ++ l2) st =
        match p.runSteps l1 st with
        | Except.ok st1 => p.runSteps l2 st1
        | Except.error e => Except.error e := by
  intro l1
  induction l1 with
  | nil => intro l2 st; rfl
  | cons n t ih =>
    intro l2 st
    simp only [List.cons_append, Pipeline.runSteps]
    cases p.executeStep n.1 n.2 st with
    | ok r => exact ih l2 r.1
    | error e => rfl

/-- The replay loop computes exactly the unfiltered per-record results with
the `None`-valued ones removed, appended to the accumulator. -/
theorem replayLoop_eq_records (p : Pipeline) (fid : Nat) (ds : DatasetStep) :
    ∀ (fuel : Nat) (st : ExecState) (c : Nat) (acc : List Value),
      p.replayLoop fid ds fuel st c acc =
        match p.replayRecordResults fid ds fuel st c with
        | Except.error e => Except.error e
        | Except.ok rs =>
          Except.ok (Value.vList (acc ++ rs.filter (fun v => !v.isNone))) := by
  intro fuel
  induction fuel with
  | zero => intro st c acc; rfl
  | succ fuel ih =>
    intro st c acc
    rw [Pipeline.replayLoop, Pipeline.replayRecordResults]
    cases hdrop : ds.dataset.records.drop c with
    | nil => simp
    | cons item t =>
      simp only []
      cases hproc : ds.process (st.effKey fid ds.input_key 0)
          (st.effKey fid ds.output_key 1) item st.ctx with
      | error e => rfl
      | ok ctx1 =>
        simp only []
        cases hitem : item.isNone with
        | true => simp
        | false =>
          simp only [Bool.false_eq_true, if_false]
          cases hsub : p.executeFrom fid { st with ctx := ctx1 } with
          | error e => rfl
          | ok r =>
            obtain ⟨st2, sub⟩ := r
            simp only []
            rw [ih]
            cases hrr : p.replayRecordResults fid ds fuel
                { st2 with ctx := Context.clear st2.ctx } (c + 1) with
            | error e => rfl
            | ok rest =>
              simp only []
              cases hs : sub.isNone with
              | true =>
                have : sub = Value.vNone := by
                  cases sub <;> simp [Value.isNone] at hs ⊢
                simp [List.filter_cons, hs]
              | false => simp [List.filter_cons, hs]

/-- When every record is a non-`None` value and the unfiltered replay
succeeds, it produces one entry per remaining record. -/
theorem replayRecordResults_length (p : Pipeline) (fid : Nat) (ds : DatasetStep)
    (hrec : ∀ v ∈ ds.dataset.records, v.isNone = false) :
    ∀ (fuel c : Nat) (st : ExecState) (rs : List Value),
      p.replayRecordResults fid ds fuel st c = Except.ok rs →
      rs.length = ds.dataset.records.length - c := by
  intro fuel
  induction fuel with
  | zero => intro c st rs h; cases h
  | succ fuel ih =>
    intro c st rs h
    rw [Pipeline.replayRecordResults] at h
    cases hdrop : ds.dataset.records.drop c with
    | nil =>
      rw [hdrop] at h
      have hlen := List.length_drop c ds.dataset.records
      rw [hdrop] at hlen
      simp only [List.length_nil] at hlen
      cases h
      simp [← hlen]
    | cons item t =>
      rw [hdrop] at h
      simp only [] at h
      have hlen := List.length_drop c ds.dataset.records
      rw [hdrop] at hlen
      have hmem : item ∈ ds.dataset.records := by
        have h1 : item ∈ ds.dataset.records.drop c := by
          rw [hdrop]; exact List.mem_cons_self _ _
        exact List.drop_subset c ds.dataset.records h1
      rw [hrec item hmem] at h
      simp only [Bool.false_eq_true, if_false] at h
      cases hproc : ds.process (st.effKey fid ds.input_key 0)
          (st.effKey fid ds.output_key 1) item st.ctx with
      | error e => rw [hproc] at h; cases h
      | ok ctx1 =>
        rw [hproc] at h
        simp only [] at h
        cases hsub : p.executeFrom fid { st with ctx := ctx1 } with
        | error e => rw [hsub] at h; cases h
        | ok r =>
          obtain ⟨st2, sub⟩ := r
          rw [hsub] at h
          simp only [] at h
          cases hrest : p.replayRecordResults fid ds fuel
              { st2 with ctx := Context.clear st2.ctx } (c + 1) with
          | error e => rw [hrest] at h; cases h
          | ok rest =>
            rw [hrest] at h
            simp only [] at h
            cases h
            have hr := ih (c + 1) { st2 with ctx := Context.clear st2.ctx } rest hrest
            simp only [List.length_cons, hr, List.length_cons] at hlen ⊢
            omega

/-- Every node of an edge-chain other than the head has a predecessor in
the chain (its previous element). -/
theorem chain_pred {R : Nat → Nat → Prop} :
    ∀ (a : Nat) (rest : List Nat), List.Chain R a rest →
      ∀ b ∈ rest, ∃ x ∈ a :: rest, R x b := by
  intro a rest
  induction rest generalizing a with
  | nil => simp
  | cons c t ih =>
    intro hch b hb
    rcases List.chain_cons.mp hch with ⟨hac, hct⟩
    rcases List.mem_cons.mp hb with rfl | hbt
    · exact ⟨a, List.mem_cons_self _ _, hac⟩
    · obtain ⟨x, hx, hR⟩ := ih c hct b hbt
      refine ⟨x, ?_, hR⟩
      rcases List.mem_cons.mp hx with rfl | hxt
      · exact List.mem_cons_of_mem _ (List.mem_cons_self _ _)
      · exact List.mem_cons_of_mem _ (List.mem_cons_of_mem _ hxt)

/-- Every node on a cycle has an in-neighbour on the cycle. -/
theorem cycle_pred (edges : List (Nat × Nat)) :
    ∀ (c : List Nat), isCycle edges c → ∀ b ∈ c, ∃ x ∈ c, (x, b) ∈ edges := by
  intro c hc b hb
  cases c with
  | nil => exact absurd hc (by simp [isCycle])
  | cons a rest =>
    obtain ⟨hch, hlast⟩ := hc
    rcases List.mem_cons.mp hb with hba | hbt
    · subst hba
      exact ⟨(b :: rest).getLast (List.cons_ne_nil b rest),
        List.getLast_mem _, hlast⟩
    · exact chain_pred a rest hch b hbt

/-- Kahn's algorithm can never remove a node of a set in which every node
has an in-neighbour inside the set, so it reports the cycle error whenever
such a set survives in the remaining nodes. -/
theorem kahn_cycle (edges : List (Nat × Nat)) (C : List Nat) (hC : C ≠ [])
    (hpred : ∀ b ∈ C, ∃ x ∈ C, (x, b) ∈ edges) :
    ∀ (fuel : Nat) (remaining : List (Nat × Step)),
      (∀ x ∈ C, x ∈ remaining.map (fun m => m.1)) →
      kahn edges fuel remaining
        = Except.error (PErr.graphError "cycle detected") := by
  intro fuel
  induction fuel with
  | zero =>
    intro remaining hsub
    cases remaining with
    | nil =>
      obtain ⟨b, hb⟩ := List.exists_mem_of_ne_nil C hC
      have := hsub b hb
      simp at this
    | cons r t => rfl
  | succ fuel ih =>
    intro remaining hsub
    cases remaining with
    | nil =>
      obtain ⟨b, hb⟩ := List.exists_mem_of_ne_nil C hC
      have := hsub b hb
      simp at this
    | cons r t =>
      simp only [kahn]
      cases hfind : (r :: t).find? (fun m => noIncoming edges (r :: t) m.1) with
      | none => rfl
      | some m =>
        simp only []
        have hni := List.find?_some hfind
        have hni2 : edges.any
            (fun e => e.2 == m.1 && (r :: t).any (fun q => q.1 == e.1))
              = false := by
          simpa [noIncoming] using hni
        have hmnotC : m.1 ∉ C := by
          intro hmC
          obtain ⟨x, hxC, hedge⟩ := hpred m.1 hmC
          have hxrem := hsub x hxC
          have hxany : ((r :: t).any (fun q => q.1 == x)) = true := by
            rcases List.mem_map.mp hxrem with ⟨q, hq, hq1⟩
            exact List.any_eq_true.mpr ⟨q, hq, by simp [hq1]⟩
          have hall : edges.any
              (fun e => e.2 == m.1 && (r :: t).any (fun q => q.1 == e.1))
                = true :=
            List.any_eq_true.mpr ⟨(x, m.1), hedge, by simp [hxany]⟩
          rw [hni2] at hall
          cases hall
        have hsub2 : ∀ y ∈ C,
            y ∈ ((r :: t).filter (fun x => !(x.1 == m.1))).map (fun m => m.1) := by
          intro y hy
          rcases List.mem_map.mp (hsub y hy) with ⟨q, hq, hq1⟩
          have hqm : (q.1 == m.1) = false := by
            have hne : ¬q.1 = m.1 := by
              intro hqe
              apply hmnotC
              rw [← hqe, hq1]
              exact hy
            simpa using hne
          exact List.mem_map.mpr ⟨q, List.mem_filter.mpr ⟨hq, by simp [hqm]⟩, hq1⟩
        rw [ih _ hsub2]

/-- Claim C3: for every Context, `get` immediately after `add(key, v)`
returns `v`; `update` on an absent key fails with KeyNotFound and succeeds
by replacing the value when the key is present; `remove` on an absent key
fails with KeyNotFound; and after `clear`, `get` returns the Missing
signal (`None`) for every key. -/
theorem claim_C3 :
    (∀ (c : Context) (k : String) (v : Value), (c.add k v).get k = v)
    ∧ (∀ (c : Context) (k : String) (v : Value),
        List.lookup k c = Option.none →
        c.update k v = Except.error (PErr.keyError k))
    ∧ (∀ (c : Context) (k : String) (v : Value),
        (List.lookup k c).isSome = true →
        c.update k v = Except.ok (c.add k v) ∧ (c.add k v).get k = v)
    ∧ (∀ (c : Context) (k : String),
        List.lookup k c = Option.none →
        c.remove k = Except.error (PErr.keyError k))
    ∧ (∀ (c : Context) (k : String), (c.clear).get k = Value.vNone) := by
  refine ⟨fun c k v => Context.get_add c k v, ?_, ?_, ?_, ?_⟩
  · intro c k v h
    simp [Context.update, h]
  · intro c k v h
    exact ⟨by simp [Context.update, h, Context.add], Context.get_add c k v⟩
  · intro c k h
    simp [Context.remove, h]
  · intro c k
    rfl

/-- Witness for C3 at concrete stores and keys. -/
theorem claim_C3_witness :
    (Context.add [] "k" (Value.vInt 7)).get "k" = Value.vInt 7
    ∧ Context.update [] "k" (Value.vInt 7) = Except.error (PErr.keyError "k")
    ∧ (Context.update [("k", Value.vInt 1)] "k" (Value.vInt 7)
        = Except.ok (Context.add [("k", Value.vInt 1)] "k" (Value.vInt 7))
      ∧ (Context.add [("k", Value.vInt 1)] "k" (Value.vInt 7)).get "k"
        = Value.vInt 7)
    ∧ Context.remove [] "k" = Except.error (PErr.keyError "k")
    ∧ (Context.clear [("a", Value.vInt 1)]).get "k" = Value.vNone :=
  ⟨claim_C3.1 [] "k" (Value.vInt 7),
   claim_C3.2.1 [] "k" (Value.vInt 7) rfl,
   claim_C3.2.2.1 [("k", Value.vInt 1)] "k" (Value.vInt 7) rfl,
   claim_C3.2.2.2.1 [] "k" rfl,
   claim_C3.2.2.2.2 [("a", Value.vInt 1)] "k"⟩

/-- Claim C10: a pipeline with no steps executes to the empty list without
error, while a non-empty single-pass pipeline returns the single value
stored under the final step's output key rather than a list. -/
theorem claim_C10 :
    Pipeline.empty.execute Option.none = Except.ok (Value.vList [])
    ∧ pApply.execute (Option.some [("x", Value.vInt 5)])
        = Except.ok (Value.vInt 5) :=
  ⟨rfl, rfl⟩

/-- Claim C9: a Source step with `output_key` set but `input_key` unset
fails with a `KeyError` on any dataset with a remaining record (a
string-keyed mapping, so the `None` key has no entry), because the value
stored under `output_key` is looked up from the record by the unset
`input_key`. -/
theorem claim_C9 (ds : DatasetStep) (c : Nat) (ctx : Context) (k : String)
    (r : List (String × Value)) (rest : List Value)
    (htarget : truthy ds.target = Option.none)
    (hdrop : ds.dataset.records.drop c = Value.vDict r :: rest) :
    ds.fetch Option.none (Option.some k) c ctx
      = Except.error (PErr.keyError "None") := by
  rw [DatasetStep.fetch, hdrop]
  simp [DatasetStep.process, htarget, DatasetStep.processKeys, pyGetItem]

/-- Witness for C9 at the concrete step `dsC9` and its one-record
dataset. -/
theorem claim_C9_witness :
    dsC9.fetch Option.none (Option.some "out") 0 []
      = Except.error (PErr.keyError "None") :=
  claim_C9 dsC9 0 [] "out" [("q", Value.vInt 1)] [] rfl rfl

/-- Claim C4: a Source step with target set stores `record[target]` under
`target` when `target_type = "direct"`, stores `record[record[target]]`
under `target` when `target_type = "indirect"` (with the spec's
route/dest/42 scenario as instance), and fails with the invalid
configuration `ValueError` for every other target type. The direct and
indirect parts are stated for steps whose input/output keys are unset (the
claim's scenario shape); the error part holds for arbitrary keys since the
failure precedes the key copies. -/
theorem claim_C4 :
    (∀ (ds : DatasetStep) (t : String) (item v : Value) (ctx : Context),
      truthy ds.target = Option.some t →
      ds.target_type = Option.some "direct" →
      pyGetItem item ds.target = Except.ok v →
      ds.process Option.none Option.none item ctx
          = Except.ok (Context.add ctx t v)
        ∧ (Context.add ctx t v).get t = v)
    ∧ (∀ (ds : DatasetStep) (t : String) (item sel v : Value) (ctx : Context),
      truthy ds.target = Option.some t →
      ds.target_type = Option.some "indirect" →
      pyGetItem item ds.target = Except.ok sel →
      pyGetItemByValue item sel = Except.ok v →
      ds.process Option.none Option.none item ctx
          = Except.ok (Context.add ctx t v)
        ∧ (Context.add ctx t v).get t = v)
    ∧ dsInd.process Option.none Option.none recInd []
        = Except.ok [("route", Value.vInt 42)]
    ∧ (∀ (ds : DatasetStep) (t : String) (effIn effOut : Option String)
        (item : Value) (ctx : Context),
      truthy ds.target = Option.some t →
      ds.target_type ≠ Option.some "direct" →
      ds.target_type ≠ Option.some "indirect" →
      ds.process effIn effOut item ctx
        = Except.error (PErr.valueError "Invalid target_type")) := by
  refine ⟨?_, ?_, rfl, ?_⟩
  · intro ds t item v ctx ht htt hget
    refine ⟨?_, Context.get_add ctx t v⟩
    rw [DatasetStep.process, ht]
    simp [htt, hget, DatasetStep.processKeys]
  · intro ds t item sel v ctx ht htt hget1 hget2
    refine ⟨?_, Context.get_add ctx t v⟩
    rw [DatasetStep.process, ht]
    simp [htt, hget1, hget2, DatasetStep.processKeys]
  · intro ds t effIn effOut item ctx ht h1 h2
    rw [DatasetStep.process, ht]
    simp [h1, h2]

/-- Witness for C4: the direct copy at a concrete step and the invalid
target type `"sideways"`. -/
theorem claim_C4_witness :
    (dsDirect.process Option.none Option.none
        (Value.vDict [("q", Value.vInt 3)]) []
        = Except.ok (Context.add [] "q" (Value.vInt 3))
      ∧ (Context.add [] "q" (Value.vInt 3)).get "q" = Value.vInt 3)
    ∧ dsBadTT.process Option.none Option.none
        (Value.vDict [("q", Value.vInt 3)]) []
        = Except.error (PErr.valueError "Invalid target_type") :=
  ⟨claim_C4.1 dsDirect "q" (Value.vDict [("q", Value.vInt 3)])
      (Value.vInt 3) [] rfl rfl rfl,
   claim_C4.2.2.2 dsBadTT "q" Option.none Option.none
      (Value.vDict [("q", Value.vInt 3)]) [] rfl (by decide) (by decide)⟩

/-- Claim C5: a Template step fails with the missing-variable `KeyError`
whenever some placeholder has no value in the Context and no declared
default; otherwise it writes the fully substituted string to its output
key and returns it. -/
theorem claim_C5 :
    (∀ (tpl : Template) (vars : List (String × Value)) (k n : String)
        (ctx : Context),
      TPart.var n ∈ tpl →
      List.lookup n ctx = Option.none →
      List.lookup n vars = Option.none →
      ∃ m, promptExecute tpl vars k ctx = Except.error (PErr.keyError m))
    ∧ (∀ (tpl : Template) (vars : List (String × Value)) (k : String)
        (ctx : Context),
      (∀ n, TPart.var n ∈ tpl →
        (List.lookup n (dictMerge vars ctx)).isSome = true) →
      ∃ s, pyFormat tpl (dictMerge vars ctx) = Except.ok s ∧
        promptExecute tpl vars k ctx
          = Except.ok (Context.add ctx k (Value.vStr s), s)) := by
  constructor
  · intro tpl vars k n ctx hmem hctx hvars
    have hmerge := dictMerge_lookup_none n vars ctx hctx hvars
    obtain ⟨m, hm⟩ :=
      pyFormat_error_of_missing (dictMerge vars ctx) tpl n hmem hmerge
    exact ⟨m, by rw [promptExecute, hm]⟩
  · intro tpl vars k ctx h
    obtain ⟨s, hs⟩ := pyFormat_ok_of_resolved (dictMerge vars ctx) tpl h
    exact ⟨s, hs, by rw [promptExecute, hs]⟩

/-- Witness for C5: the unresolved placeholder `nm` and a literal-only
template. -/
theorem claim_C5_witness :
    (∃ m, promptExecute [TPart.var "nm"] [] "o" []
      = Except.error (PErr.keyError m))
    ∧ (∃ s, pyFormat [TPart.lit "hi"] (dictMerge [] []) = Except.ok s ∧
        promptExecute [TPart.lit "hi"] [] "o" []
          = Except.ok (Context.add [] "o" (Value.vStr s), s)) :=
  ⟨claim_C5.1 [TPart.var "nm"] [] "o" "nm" [] (by simp) rfl rfl,
   claim_C5.2 [TPart.lit "hi"] [] "o" [] (by simp)⟩

/-- Claim C2, amended: when the first node in topological order is a
Source step whose dataset does not expose a length, `execute` fails
immediately with the `TypeError` raised by the progress bar's `len` call,
before processing any record — an unknown length aborts the run instead of
merely disabling progress reporting. -/
theorem claim_C2_amended (p : Pipeline) (fid : Nat) (ds : DatasetStep)
    (rest : List (Nat × Step)) (init : Option Context)
    (htopo : p.topoSort = Except.ok ((fid, Step.dataset ds) :: rest))
    (hsz : ds.dataset.sized = false) :
    p.execute init = Except.error (PErr.typeError "object has no len()") := by
  rw [Pipeline.execute, htopo]
  simp [hsz]

/-- Counterexample to C2 as stated: for the concrete pipeline over a
length-less one-record dataset, `execute` raises instead of running to
completion. -/
theorem claim_C2_cex :
    pUnsized.execute Option.none
      = Except.error (PErr.typeError "object has no len()") := rfl

/-- Witness for the amended C2 at the concrete pipeline `pUnsized`. -/
theorem claim_C2_amended_witness :
    pUnsized.execute Option.none
      = Except.error (PErr.typeError "object has no len()") :=
  claim_C2_amended pUnsized 0 dsUnsized [] Option.none rfl rfl

/-- Claim C6: for every pipeline whose graph contains a cycle (all cycle
nodes being graph nodes), `execute` terminates by failing with the graph
error from the topological-ordering phase, which precedes all node
execution. -/
theorem claim_C6 (p : Pipeline) (c : List Nat) (init : Option Context)
    (hcyc : isCycle p.edges c)
    (hsub : ∀ x ∈ c, x ∈ p.nodes.map (fun m => m.1)) :
    p.execute init = Except.error (PErr.graphError "cycle detected") := by
  have hC : c ≠ [] := by
    intro h
    rw [h] at hcyc
    exact hcyc
  have htopo : p.topoSort = Except.error (PErr.graphError "cycle detected") := by
    rw [Pipeline.topoSort]
    exact kahn_cycle p.edges c hC (cycle_pred p.edges c hcyc)
      p.nodes.length p.nodes hsub
  rw [Pipeline.execute, htopo]

/-- Witness for C6: the pipeline built by adding step A, step B, then step
A again (edges A→B and B→A). -/
theorem claim_C6_witness :
    pCycle.execute Option.none
      = Except.error (PErr.graphError "cycle detected") :=
  claim_C6 pCycle [0, 1] Option.none
    ⟨List.Chain.cons (by decide) List.Chain.nil, by decide⟩ (by decide)

/-- Claim C7: each dataset-replay iteration consumes the record at the
current cursor — which is the record at that index of the dataset, so
records are consumed one at a time in source order — and after the
sub-traversal the loop continues at the next cursor with the context fully
cleared, so every context lookup at the next fetch returns the Missing
signal and no entry written for one record is visible for a later one. -/
theorem claim_C7 (p : Pipeline) (fid : Nat) (ds : DatasetStep)
    (fuel c : Nat) (st st2 : ExecState) (acc : List Value)
    (item sub : Value) (rest : List Value) (ctx1 : Context)
    (hdrop : ds.dataset.records.drop c = item :: rest)
    (hproc : ds.process (st.effKey fid ds.input_key 0)
      (st.effKey fid ds.output_key 1) item st.ctx = Except.ok ctx1)
    (hitem : item.isNone = false)
    (hsub : p.executeFrom fid { st with ctx := ctx1 } = Except.ok (st2, sub)) :
    p.replayLoop fid ds (fuel + 1) st c acc
      = p.replayLoop fid ds fuel { st2 with ctx := Context.clear st2.ctx }
          (c + 1) (if sub.isNone then acc else acc ++ [sub])
    ∧ ds.dataset.records[c]? = Option.some item
    ∧ (∀ k, Context.get (Context.clear st2.ctx) k = Value.vNone) := by
  refine ⟨?_, getElem?_of_drop_cons _ _ _ _ hdrop, fun k => rfl⟩
  rw [Pipeline.replayLoop, hdrop]
  simp [hproc, hitem, hsub]

/-- Witness for C7 at the first record of `pCex`. -/
theorem claim_C7_witness :
    pCex.replayLoop 0 dsCex 2 (initState Option.none) 0 []
      = pCex.replayLoop 0 dsCex 1
          { ctx := [], gen := [], iters := [], supply := 0 } 1 []
    ∧ dsCex.dataset.records[0]? = Option.some (Value.vDict [("q", Value.vNone)])
    ∧ Context.get (Context.clear [("q", Value.vNone)]) "q" = Value.vNone := by
  have h := claim_C7 pCex 0 dsCex 1 0 (initState Option.none)
    { ctx := [("q", Value.vNone)], gen := [], iters := [], supply := 0 } []
    (Value.vDict [("q", Value.vNone)]) Value.vNone [] [("q", Value.vNone)]
    rfl rfl rfl rfl
  exact ⟨h.1, h.2.1, h.2.2 "q"⟩

/-- Claim C8: a step error propagates unmodified out of `execute`. In
single-pass mode, if the steps before some step succeed and that step's
execution raises `e`, the whole run returns exactly `e`. In dataset-replay
mode, if the in-flight record's sub-traversal raises `e`, the loop returns
exactly `e`, discarding the results already accumulated for prior records;
and a loop error becomes the result of `execute` itself. -/
theorem claim_C8 :
    (∀ (p : Pipeline) (init : Option Context)
        (steps pre post : List (Nat × Step)) (sid : Nat) (s : Step)
        (st1 : ExecState) (e : PErr),
      p.topoSort = Except.ok steps →
      headIsDataset steps = false →
      steps = pre ++ (sid, s) :: post →
      p.runSteps pre (initState init) = Except.ok st1 →
      p.executeStep sid s st1 = Except.error e →
      p.execute init = Except.error e)
    ∧ (∀ (p : Pipeline) (fid : Nat) (ds : DatasetStep) (fuel c : Nat)
        (st : ExecState) (acc : List Value) (item : Value)
        (rest : List Value) (ctx1 : Context) (e : PErr),
      ds.dataset.records.drop c = item :: rest →
      ds.process (st.effKey fid ds.input_key 0)
        (st.effKey fid ds.output_key 1) item st.ctx = Except.ok ctx1 →
      item.isNone = false →
      p.executeFrom fid { st with ctx := ctx1 } = Except.error e →
      p.replayLoop fid ds (fuel + 1) st c acc = Except.error e)
    ∧ (∀ (p : Pipeline) (fid : Nat) (ds : DatasetStep)
        (rest : List (Nat × Step)) (init : Option Context) (e : PErr),
      p.topoSort = Except.ok ((fid, Step.dataset ds) :: rest) →
      ds.dataset.sized = true →
      p.replayLoop fid ds (ds.dataset.records.length + 1)
        (initState init) 0 [] = Except.error e →
      p.execute init = Except.error e) := by
  refine ⟨?_, ?_, ?_⟩
  · intro p init steps pre post sid s st1 e htopo hnd hsplit hpre hstep
    have hsingle : p.execute init = p.singlePass steps (initState init) := by
      rw [Pipeline.execute, htopo]
      cases steps with
      | nil => rfl
      | cons hd tl =>
        obtain ⟨hid, hs⟩ := hd
        cases hs with
        | dataset ds => simp [headIsDataset] at hnd
        | prompt tpl vars ik ok_ => rfl
        | model caller ptpl ik ok_ => rfl
        | apply f ik ok_ => rfl
    rw [hsingle, Pipeline.singlePass, hsplit, runSteps_append, hpre]
    simp [Pipeline.runSteps, hstep]
  · intro p fid ds fuel c st acc item rest ctx1 e hdrop hproc hitem hsub
    rw [Pipeline.replayLoop, hdrop]
    simp [hproc, hitem, hsub]
  · intro p fid ds rest init e htopo hsz hloop
    rw [Pipeline.execute, htopo]
    simp [hsz, hloop]

/-- Witness for C8: the failing transform aborts a single-pass run; the
failing sub-traversal aborts the replay loop at the first record; and the
loop error surfaces from `execute`. -/
theorem claim_C8_witness :
    pFail.execute Option.none = Except.error (PErr.valueError "boom")
    ∧ pDFail.replayLoop 0 dsAB 1 (initState Option.none) 0 []
        = Except.error (PErr.valueError "boom")
    ∧ pDFail.execute Option.none = Except.error (PErr.valueError "boom") :=
  ⟨claim_C8.1 pFail Option.none
      [(0, Step.apply failFunc (Option.some "x") (Option.some "y"))] [] [] 0
      (Step.apply failFunc (Option.some "x") (Option.some "y"))
      (initState Option.none) (PErr.valueError "boom") rfl rfl rfl rfl rfl,
   claim_C8.2.1 pDFail 0 dsAB 0 0 (initState Option.none) []
      (Value.vDict [("q", Value.vStr "a")])
      [Value.vDict [("q", Value.vStr "b")]]
      [("q", Value.vStr "a")] (PErr.valueError "boom") rfl rfl rfl rfl,
   claim_C8.2.2 pDFail 0 dsAB
      [(1, Step.apply failFunc (Option.some "q") (Option.some "out"))]
      Option.none (PErr.valueError "boom") rfl rfl rfl⟩

/-- Claim C1, amended: when the first node in topological order is a
Source step over a sized dataset of records (none of which is the `None`
value) and every record's sub-traversal completes without error, `execute`
processes exactly `n = len(dataset)` records, but returns the per-record
results with the `None`-valued ones removed — the sequence has exactly `n`
entries only when no record's sub-result is `None`. -/
theorem claim_C1_amended (p : Pipeline) (fid : Nat) (ds : DatasetStep)
    (rest : List (Nat × Step)) (init : Option Context) (rs : List Value)
    (htopo : p.topoSort = Except.ok ((fid, Step.dataset ds) :: rest))
    (hsz : ds.dataset.sized = true)
    (hall : p.replayRecordResults fid ds (ds.dataset.records.length + 1)
      (initState init) 0 = Except.ok rs)
    (hrec : ∀ v ∈ ds.dataset.records, v.isNone = false) :
    p.execute init
      = Except.ok (Value.vList (rs.filter (fun v => !v.isNone)))
    ∧ rs.length = ds.dataset.records.length := by
  constructor
  · rw [Pipeline.execute, htopo]
    simp only [hsz, if_true]
    rw [replayLoop_eq_records, hall]
    simp
  · have h := replayRecordResults_length p fid ds hrec
      (ds.dataset.records.length + 1) 0 (initState init) rs hall
    simpa using h

/-- Witness for the amended C1 at `pAB`: both sub-results are non-`None`,
so the run yields one entry per record. -/
theorem claim_C1_amended_witness :
    pAB.execute Option.none
      = Except.ok (Value.vList
          ([Value.vList [Value.vStr "a"], Value.vList [Value.vStr "b"]].filter
            (fun v => !v.isNone)))
    ∧ ([Value.vList [Value.vStr "a"],
        Value.vList [Value.vStr "b"]] : List Value).length
        = dsAB.dataset.records.length :=
  claim_C1_amended pAB 0 dsAB
    [(1, Step.apply wrapFunc (Option.some "q") (Option.some "out"))]
    Option.none [Value.vList [Value.vStr "a"], Value.vList [Value.vStr "b"]]
    rfl rfl rfl (by decide)

/-- Counterexample to C1 as stated: `pCex` replays a one-record dataset
whose sub-traversal completes without error (the unfiltered per-record
results are `[None]`), yet `execute` returns an empty result sequence
instead of one of length 1 — the `None` sub-result was filtered out. -/
theorem claim_C1_cex :
    dsCex.dataset.records.length = 1
    ∧ pCex.replayRecordResults 0 dsCex 2 (initState Option.none) 0
        = Except.ok [Value.vNone]
    ∧ pCex.execute Option.none = Except.ok (Value.vList []) :=
  ⟨rfl, rfl, rfl⟩
